import Mathlib

/-!
Verification of the blackjack round engine in `src/debug.tsx`.

The development shallowly embeds the game logic of the source file:
the hand evaluator `calculateHandValue`, the payout engine
`calculatePayout`, and the round controller (the `handleHit`,
`handleStand`, `handleDouble`, `handleReset` callbacks, the player-bust
effect, and `runDealerTurn`).  React component state
(`useState` fields of `GamePage`) is collected into one record `GState`;
the derived scores (`playerScore`, `dealerScore`), which the source
recomputes in a deferred effect whenever a hand changes, are modelled as
functions of the hands, i.e. we reason about the settled state in which
every pending score-update effect has already fired (the spec, section 5,
states that the reveal/score delays are presentation pacing only and may
be collapsed to zero).  The dealer's unbounded `while` loop is embedded
with explicit fuel, and we prove that the chosen fuel already reaches the
loop's exit condition, so the embedding computes the loop's true result.
-/

namespace BlackJack

/-- A card rank as the source stores it (the `rank` part of a string such
as `"5♣"`).  Numeric ranks keep their numeric value (`Number(rank)` in the
source); `"A"`, `"K"`, `"Q"`, `"J"` are the named ranks. -/
inductive Rank where
  | ace
  | king
  | queen
  | jack
  | num (n : Nat)
deriving DecidableEq

/-- `UICard` from the source: rank, suit (the mapped `folder/file` string)
and the `isFaceDown` presentation flag. -/
structure UICard where
  rank : Rank
  suit : String
  isFaceDown : Bool
deriving DecidableEq

/-- The ranks of the revealed (not face-down) cards, in order:
`cards.filter((c) => !c.isFaceDown).map((c) => c.rank)`. -/
def revealedRanks (cards : List UICard) : List Rank :=
  (cards.filter (fun c => !c.isFaceDown)).map (fun c => c.rank)

/-- One step of the first pass of `calculateHandValue`: accumulate the
non-ace total and the ace count over the rank list. -/
def tallyStep : Nat × Nat → Rank → Nat × Nat
  | (total, aces), .ace => (total, aces + 1)
  | (total, aces), .king => (total + 10, aces)
  | (total, aces), .queen => (total + 10, aces)
  | (total, aces), .jack => (total + 10, aces)
  | (total, aces), .num n => (total + n, aces)

/-- The `while (aces > 0)` loop of `calculateHandValue`: an ace counts 11
when `total + 11 + (aces - 1) <= 21` (the other, not yet resolved aces
counted at their minimum of 1 each), and 1 otherwise. -/
def resolveAces : Nat → Nat → Nat
  | total, 0 => total
  | total, aces + 1 =>
    if total + 11 + aces ≤ 21 then resolveAces (total + 11) aces
    else resolveAces (total + 1) aces

/-- `calculateHandValue` from the source: evaluates only the revealed
cards, `null` on an empty revealed list. -/
def calculateHandValue (cards : List UICard) : Option Nat :=
  let ranks := revealedRanks cards
  if ranks.isEmpty then none
  else
    let p := ranks.foldl tallyStep (0, 0)
    some (resolveAces p.1 p.2)

/-! ### Spec-side vocabulary for the evaluator claims -/

/-- Face value of a non-ace rank (10 for J/Q/K); an ace is handled by the
ace-resolution rule and contributes 0 here. -/
def faceVal : Rank → Nat
  | .king => 10
  | .queen => 10
  | .jack => 10
  | .num n => n
  | .ace => 0

/-- Whether a rank is an ace. -/
def isAce : Rank → Bool
  | .ace => true
  | _ => false

/-- Sum of the face values of the non-ace ranks of a sequence. -/
def nonAceSum (rs : List Rank) : Nat := (rs.map faceVal).sum

/-- Number of aces in a rank sequence. -/
def aceCount (rs : List Rank) : Nat := rs.countP (fun r => isAce r)

/-- Ace resolution exactly as claim C1 words it: an ace counts 11 unless,
with every not-yet-resolved ace also presumed at 11, the total would
exceed 21, in which case it counts 1. -/
def resolveAcesClaim : Nat → Nat → Nat
  | total, 0 => total
  | total, aces + 1 =>
    if total + 11 + 11 * aces ≤ 21 then resolveAcesClaim (total + 11) aces
    else resolveAcesClaim (total + 1) aces

/-- The evaluator as claim C1 describes it (remaining aces presumed at 11
while resolving an ace). -/
def evaluateClaim (cards : List UICard) : Option Nat :=
  let ranks := revealedRanks cards
  if ranks.isEmpty then none
  else some (resolveAcesClaim (nonAceSum ranks) (aceCount ranks))

/-- Closed form of the score of a nonempty revealed sequence with non-ace
sum `s` and ace count `a`. -/
def closedScore (s a : Nat) : Nat :=
  if a = 0 then s
  else if s + a + 10 ≤ 21 then s + a + 10 else s + a

/-! ### Evaluator lemmas -/

lemma foldl_tally (rs : List Rank) : ∀ t a : Nat,
    rs.foldl tallyStep (t, a) = (t + nonAceSum rs, a + aceCount rs) := by
  induction rs with
  | nil => intro t a; simp [nonAceSum, aceCount]
  | cons r rs ih =>
    intro t a
    have hcount : aceCount (r :: rs) = aceCount rs + (if isAce r then 1 else 0) := by
      simp [aceCount, List.countP_cons]
    have hsum : nonAceSum (r :: rs) = faceVal r + nonAceSum rs := by
      simp [nonAceSum]
    cases r <;>
      simp [List.foldl_cons, tallyStep, ih, hcount, hsum, faceVal, isAce,
        Prod.mk.injEq] <;> omega

lemma resolveAces_succ (a : Nat) : ∀ t, resolveAces t (a + 1) =
    if t + a + 11 ≤ 21 then t + a + 11 else t + a + 1 := by
  induction a with
  | zero =>
    intro t
    have h1 : resolveAces t 1 =
        if t + 11 + 0 ≤ 21 then resolveAces (t + 11) 0 else resolveAces (t + 1) 0 := rfl
    rw [h1]
    simp [resolveAces]
  | succ a ih =>
    intro t
    have h1 : resolveAces t (a + 1 + 1) =
        if t + 11 + (a + 1) ≤ 21 then resolveAces (t + 11) (a + 1)
        else resolveAces (t + 1) (a + 1) := rfl
    rw [h1, ih (t + 11), ih (t + 1)]
    split_ifs <;> omega

lemma calculateHandValue_eq (cards : List UICard) :
    calculateHandValue cards =
      if revealedRanks cards = [] then none
      else some (closedScore (nonAceSum (revealedRanks cards))
        (aceCount (revealedRanks cards))) := by
  by_cases h : revealedRanks cards = []
  · simp [calculateHandValue, h]
  · rw [if_neg h]
    have hne : (revealedRanks cards).isEmpty = false := by
      simpa [List.isEmpty_iff] using h
    simp only [calculateHandValue, hne, Bool.false_eq_true, if_false]
    rw [foldl_tally]
    simp only [Nat.zero_add]
    congr 1
    rcases ha : aceCount (revealedRanks cards) with _ | b
    · simp [resolveAces, closedScore]
    · rw [resolveAces_succ]
      simp only [closedScore, Nat.succ_ne_zero, if_false]
      split_ifs <;> omega

lemma closedScore_lb (s a : Nat) : s ≤ closedScore s a := by
  unfold closedScore; split_ifs <;> omega

lemma handValue_some_ge (cards : List UICard) (v : Nat)
    (h : calculateHandValue cards = some v) :
    nonAceSum (revealedRanks cards) ≤ v := by
  rw [calculateHandValue_eq] at h
  by_cases h0 : revealedRanks cards = []
  · simp [h0] at h
  · rw [if_neg h0, Option.some_inj] at h
    exact h ▸ closedScore_lb _ _

lemma handValue_none_iff (cards : List UICard) :
    calculateHandValue cards = none ↔ revealedRanks cards = [] := by
  rw [calculateHandValue_eq]
  by_cases h0 : revealedRanks cards = [] <;> simp [h0]

lemma resolveAcesClaim_succ (a : Nat) : ∀ t, resolveAcesClaim t (a + 1) =
    if t + a + 11 ≤ 21 then t + a + 11 else t + a + 1 := by
  induction a with
  | zero =>
    intro t
    have h1 : resolveAcesClaim t 1 =
        if t + 11 + 11 * 0 ≤ 21 then resolveAcesClaim (t + 11) 0
        else resolveAcesClaim (t + 1) 0 := rfl
    rw [h1]
    simp only [resolveAcesClaim]
  | succ a ih =>
    intro t
    have h1 : resolveAcesClaim t (a + 1 + 1) =
        if t + 11 + 11 * (a + 1) ≤ 21 then resolveAcesClaim (t + 11) (a + 1)
        else resolveAcesClaim (t + 1) (a + 1) := rfl
    rw [h1, if_neg (by omega), ih (t + 1)]
    split_ifs <;> omega

/-- The claim's presumed-at-11 resolution computes the same closed form:
with several aces the first check always fails (two aces at 11 already
exceed 21), so every ace but the last degrades to 1 and the last may
count 11 — extensionally the same score as the source's rule, which
counts the first ace at 11 and degrades the rest. -/
lemma evaluateClaim_eq (cards : List UICard) :
    evaluateClaim cards =
      if revealedRanks cards = [] then none
      else some (closedScore (nonAceSum (revealedRanks cards))
        (aceCount (revealedRanks cards))) := by
  by_cases h : revealedRanks cards = []
  · simp [evaluateClaim, h]
  · have hne : (revealedRanks cards).isEmpty = false := by
      simpa [List.isEmpty_iff] using h
    rw [if_neg h]
    simp only [evaluateClaim, hne, Bool.false_eq_true, if_false]
    congr 1
    rcases ha : aceCount (revealedRanks cards) with _ | b
    · simp [resolveAcesClaim, closedScore]
    · rw [resolveAcesClaim_succ]
      simp only [closedScore, Nat.succ_ne_zero, if_false]
      split_ifs <;> omega

lemma handValue_perm (c1 c2 : List UICard)
    (hp : (revealedRanks c1).Perm (revealedRanks c2)) :
    calculateHandValue c1 = calculateHandValue c2 := by
  rw [calculateHandValue_eq, calculateHandValue_eq]
  have hsum : nonAceSum (revealedRanks c1) = nonAceSum (revealedRanks c2) :=
    (hp.map faceVal).sum_eq
  have hcnt : aceCount (revealedRanks c1) = aceCount (revealedRanks c2) :=
    hp.countP_eq _
  have hnil : revealedRanks c1 = [] ↔ revealedRanks c2 = [] := by
    constructor
    · intro h; rw [h] at hp; exact hp.symm.eq_nil
    · intro h; rw [h] at hp; exact hp.eq_nil
  by_cases h0 : revealedRanks c1 = []
  · rw [if_pos h0, if_pos (hnil.mp h0)]
  · rw [if_neg h0, if_neg (fun h => h0 (hnil.mpr h)), hsum, hcnt]

/-! ## Data model of the round controller

`Game` is the Zustand game-store object the source reads and writes
(`useGameStore`); `GState` collects the `useState` fields of `GamePage`.
The derived `playerScore` / `dealerScore` state variables are modelled as
functions of the hands (the settled value of the deferred score-update
effects). -/

inductive Outcome where
  | WIN
  | LOSE
  | PUSH
deriving DecidableEq

/-- A computed result: outcome plus the human-readable reason string the
source attaches. -/
structure GameResult where
  outcome : Outcome
  reason : String
deriving DecidableEq

inductive GameStatus where
  | NEW
  | BET
deriving DecidableEq

structure PlayerSide where
  chips : Int
  bet : Int
  cards : List String
deriving DecidableEq

structure DealerSide where
  chips : Int
  cards : List String
deriving DecidableEq

/-- The game-store object: `{ id, status, player, dealer }`. -/
structure Game where
  id : Int
  status : GameStatus
  player : PlayerSide
  dealer : DealerSide
deriving DecidableEq

/-- `calculatePayout` from the source: WIN adds the recorded bet to the
player's chips, LOSE subtracts it, PUSH leaves the chips unchanged; every
other field of the game object is copied. -/
def calculatePayout (game : Game) (result : GameResult) : Game :=
  let bet := game.player.bet
  let chips : Int :=
    match result.outcome with
    | .WIN => game.player.chips + bet
    | .LOSE => game.player.chips - bet
    | .PUSH => game.player.chips
  { game with player := { game.player with chips := chips } }

inductive Stage where
  | READY
  | DEALING
  | PLAYER_TURN
  | DEALER_TURN
  | RESULT
deriving DecidableEq

/-- The component state of `GamePage`: every `useState` field plus the two
mock draw cursors (`playerDrawIndexRef` / `dealerDrawIndexRef`). -/
structure GState where
  showChips : Bool
  selectedBet : Option Int
  isBetting : Bool
  isBlackjack : Bool
  playerCards : List UICard
  dealerCards : List UICard
  stage : Stage
  result : Option GameResult
  isPlayerActing : Bool
  isDealerActing : Bool
  game : Game
  playerDrawIdx : Nat
  dealerDrawIdx : Nat
deriving DecidableEq

/-- Derived player score (the settled value of the deferred
`setPlayerScore(calculateHandValue(playerCards))` effect). -/
def playerScore (s : GState) : Option Nat := calculateHandValue s.playerCards

/-- Derived dealer score. -/
def dealerScore (s : GState) : Option Nat := calculateHandValue s.dealerCards

/-- `mockPlayerDeck = ["5♣", "9♦", "2♠", "3♥", "7♣", "4♦"]`, with the
suits already run through `parseCard`'s folder/file mapping. -/
def mockPlayerDeck : List (Rank × String) :=
  [(.num 5, "clubs/club"), (.num 9, "diamonds/diamond"), (.num 2, "spades/spade"),
   (.num 3, "hearts/heart"), (.num 7, "clubs/club"), (.num 4, "diamonds/diamond")]

/-- `mockDealerDeck = ["3♣", "4♦", "9♥", "2♠", "6♦"]`. -/
def mockDealerDeck : List (Rank × String) :=
  [(.num 3, "clubs/club"), (.num 4, "diamonds/diamond"), (.num 9, "hearts/heart"),
   (.num 2, "spades/spade"), (.num 6, "diamonds/diamond")]

/-- `drawNextPlayerCard`: reads the deck at `idx % length` and advances
the cursor.  The cursor is always reduced modulo the deck length, so the
`getD` default is never used. -/
def drawNextPlayerCard (i : Nat) : (Rank × String) × Nat :=
  (mockPlayerDeck.getD (i % mockPlayerDeck.length) (Rank.num 0, ""), i + 1)

/-- `drawNextDealerCard`, same shape as the player draw. -/
def drawNextDealerCard (i : Nat) : (Rank × String) × Nat :=
  (mockDealerDeck.getD (i % mockDealerDeck.length) (Rank.num 0, ""), i + 1)

/-- Index-aware map, the shape of `array.map((c, idx) => ...)`. -/
def mapWithIdx (f : Nat → UICard → UICard) : Nat → List UICard → List UICard
  | _, [] => []
  | i, c :: cs => f i c :: mapWithIdx f (i + 1) cs

/-- `cards.map((c, idx) => idx === cards.length - 1 ? {...c, isFaceDown:
false} : c)` — flip the newest (last) card face up. -/
def flipLastCard (cs : List UICard) : List UICard :=
  mapWithIdx (fun i c => if i = cs.length - 1 then { c with isFaceDown := false } else c) 0 cs

/-- The player-bust effect (the `useEffect` watching `playerScore`): in
`PLAYER_TURN`, with a revealed score above 21 and no result yet, the
outcome LOSE (reason bust) is set, the payout applied and the stage moved
to RESULT; in every other state the effect does nothing. -/
def bustCheck (s : GState) : GState :=
  match playerScore s with
  | none => s
  | some v =>
    if s.stage = Stage.PLAYER_TURN ∧ 21 < v ∧ s.result = none then
      let outcome : GameResult := ⟨Outcome.LOSE, "爆牌"⟩
      { s with result := some outcome,
               game := calculatePayout s.game outcome,
               stage := Stage.RESULT }
    else s

/-- `handleHit`: guarded on stage and the busy flags; draws one card from
the mock player deck, appends it face down, then flips every face-down
player card.  The deferred score update and the bust effect settle before
the next action, so the processed hit is `bustCheck` after the draw.
(`isPlayerActing` is set for the duration of the animation and cleared at
the end, so it is unchanged across the settled action.) -/
def handleHit (s : GState) : GState :=
  if s.stage ≠ Stage.PLAYER_TURN ∨ s.isBetting = true ∨ s.isPlayerActing = true ∨
      s.isDealerActing = true then s
  else
    let drawn := (drawNextPlayerCard s.playerDrawIdx).1
    let afterAppend := s.playerCards ++ [⟨drawn.1, drawn.2, true⟩]
    let afterFlip := afterAppend.map
      (fun c => if c.isFaceDown then { c with isFaceDown := false } else c)
    bustCheck { s with playerCards := afterFlip,
                       playerDrawIdx := (drawNextPlayerCard s.playerDrawIdx).2 }

/-- The outcome decision at the end of `runDealerTurn`, in the source's
order of checks. -/
def decideOutcome (playerValue dealerValue : Nat) : GameResult :=
  if 21 < dealerValue ∧ playerValue ≤ 21 then ⟨Outcome.WIN, "莊家爆牌"⟩
  else if 21 < playerValue ∧ dealerValue ≤ 21 then ⟨Outcome.LOSE, "玩家爆牌"⟩
  else if playerValue = dealerValue then ⟨Outcome.PUSH, "平手"⟩
  else if dealerValue < playerValue then ⟨Outcome.WIN, "點數較高"⟩
  else ⟨Outcome.LOSE, "點數較低"⟩

/-- One iteration body of the dealer's draw loop: draw from the mock
dealer deck, append face down, flip the newest card. -/
def dealerStepCards (cards : List UICard) (i : Nat) : List UICard :=
  flipLastCard (cards ++ [⟨(drawNextDealerCard i).1.1, (drawNextDealerCard i).1.2, true⟩])

/-- The `while (dealerValue < 17)` loop of `runDealerTurn`, embedded with
fuel; each iteration draws one card and re-evaluates
(`dealerValue = calculateHandValue(localDealerCards) ?? dealerValue`).
`dealerDrawLoop_fixed` below shows fuel `dealerFuel` already reaches the
loop's exit condition, so this computes the source loop's true result. -/
def dealerDrawLoop : Nat → List UICard → Nat → Nat → List UICard × Nat × Nat
  | 0, cards, i, v => (cards, i, v)
  | fuel + 1, cards, i, v =>
    if v < 17 then
      dealerDrawLoop fuel (dealerStepCards cards i) (drawNextDealerCard i).2
        ((calculateHandValue (dealerStepCards cards i)).getD v)
    else (cards, i, v)

/-- Fuel for the dealer loop.  Every mock dealer card is worth at least 2,
so after 9 draws the dealer total is at least 18 and the loop has surely
stopped. -/
def dealerFuel : Nat := 9

/-- The dealer hand, draw cursor and dealer value after `runDealerTurn`'s
reveal step and auto-draw loop, as a function of the entering state. -/
def finalDealerState (s : GState) : List UICard × Nat × Nat :=
  let localDealerCards := s.dealerCards.map (fun c => { c with isFaceDown := false })
  dealerDrawLoop dealerFuel localDealerCards s.dealerDrawIdx
    ((calculateHandValue localDealerCards).getD 0)

/-- The final player score captured from the snapshot passed to
`runDealerTurn`:
`calculateHandValue(playerCardsSnapshot.filter((c) => !c.isFaceDown)) ?? 0`. -/
def playerSnapshotValue (snapshot : List UICard) : Nat :=
  (calculateHandValue (snapshot.filter (fun c => !c.isFaceDown))).getD 0

/-- `runDealerTurn`: reveal every dealer card, auto-draw while the dealer
value is below 17, decide the outcome from the player snapshot value and
the final dealer value, apply the payout, set the result and move to
RESULT.  (The source passes through stage DEALER_TURN while the loop
animates; the settled state is RESULT.) -/
def runDealerTurn (playerCardsSnapshot : List UICard) (s : GState) : GState :=
  let res := decideOutcome (playerSnapshotValue playerCardsSnapshot) (finalDealerState s).2.2
  { s with stage := Stage.RESULT,
           dealerCards := (finalDealerState s).1,
           dealerDrawIdx := (finalDealerState s).2.1,
           result := some res,
           game := calculatePayout s.game res,
           isDealerActing := false }

/-- `handleStand`: same guard as `handleHit`; snapshots the player hand
and runs the dealer turn. -/
def handleStand (s : GState) : GState :=
  if s.stage ≠ Stage.PLAYER_TURN ∨ s.isBetting = true ∨ s.isPlayerActing = true ∨
      s.isDealerActing = true then s
  else runDealerTurn s.playerCards s

/-- `game.player.bet || selectedBet || 0` (JS truthiness: a zero bet falls
through to the selected bet, a missing selection to 0). -/
def currentBetOf (s : GState) : Int :=
  if s.game.player.bet ≠ 0 then s.game.player.bet else s.selectedBet.getD 0

/-- The card the double path draws, already face up. -/
def doubleDrawnCard (s : GState) : UICard :=
  ⟨(drawNextPlayerCard s.playerDrawIdx).1.1, (drawNextPlayerCard s.playerDrawIdx).1.2, false⟩

/-- `handleDouble`: guarded on stage and busy flags; rejected (state
unchanged, at most an `alert`) when the player does not hold exactly two
revealed cards or the doubled bet exceeds the chip balance; otherwise the
bet is doubled, one card drawn and revealed, and the dealer turn runs on
the new hand.  The double path hands the updated hand straight to
`runDealerTurn` (which sets stage DEALER_TURN first), so the PLAYER_TURN
bust effect never fires on the double card. -/
def handleDouble (s : GState) : GState :=
  if s.stage ≠ Stage.PLAYER_TURN ∨ s.isBetting = true ∨ s.isPlayerActing = true ∨
      s.isDealerActing = true then s
  else
    if (s.playerCards.filter (fun c => !c.isFaceDown)).length ≠ 2 then s
    else
      let newBet := currentBetOf s * 2
      if s.game.player.chips < newBet then s
      else
        let localPlayerCards :=
          flipLastCard (s.playerCards ++
            [⟨(drawNextPlayerCard s.playerDrawIdx).1.1,
              (drawNextPlayerCard s.playerDrawIdx).1.2, true⟩])
        runDealerTurn localPlayerCards
          { s with game := { s.game with player := { s.game.player with bet := newBet } },
                   selectedBet := some newBet,
                   playerCards := localPlayerCards,
                   playerDrawIdx := (drawNextPlayerCard s.playerDrawIdx).2 }

/-- `handleReset`: clears hands, bet selection and result, returns to
READY, clears every transient flag, resets the draw cursors and sets the
stored game back to status NEW with bet 0 — chips untouched. -/
def handleReset (s : GState) : GState :=
  { s with playerCards := [],
           dealerCards := [],
           selectedBet := none,
           result := none,
           stage := Stage.READY,
           isBetting := false,
           isPlayerActing := false,
           isDealerActing := false,
           isBlackjack := false,
           playerDrawIdx := 0,
           dealerDrawIdx := 0,
           game := { s.game with
                     status := GameStatus.NEW
                     player := { s.game.player with bet := 0 } },
           showChips := true }

/-! ### Lemmas about the flip-last map and the dealer loop -/

lemma mapWithIdx_append (f : Nat → UICard → UICard) (ys : List UICard) :
    ∀ (xs : List UICard) (i : Nat),
      mapWithIdx f i (xs ++ ys) = mapWithIdx f i xs ++ mapWithIdx f (i + xs.length) ys := by
  intro xs
  induction xs with
  | nil => intro i; simp [mapWithIdx]
  | cons c cs ih =>
    intro i
    have harith : i + 1 + cs.length = i + (cs.length + 1) := by omega
    simp [mapWithIdx, ih (i + 1), harith]

lemma mapWithIdx_no_hit (g : UICard → UICard) (n : Nat) :
    ∀ (xs : List UICard) (i : Nat), i + xs.length ≤ n →
      mapWithIdx (fun j c => if j = n then g c else c) i xs = xs := by
  intro xs
  induction xs with
  | nil => intro i _; rfl
  | cons c cs ih =>
    intro i h
    simp only [List.length_cons] at h
    have hne : i ≠ n := by omega
    simp only [mapWithIdx, if_neg hne, ih (i + 1) (by omega)]

lemma flipLast_append (xs : List UICard) (x : UICard) :
    flipLastCard (xs ++ [x]) = xs ++ [{ x with isFaceDown := false }] := by
  unfold flipLastCard
  have hlen : (xs ++ [x]).length - 1 = xs.length := by simp
  rw [mapWithIdx_append]
  simp only [hlen]
  rw [mapWithIdx_no_hit _ _ _ _ (by omega)]
  simp [mapWithIdx]

lemma revealedRanks_append (xs ys : List UICard) :
    revealedRanks (xs ++ ys) = revealedRanks xs ++ revealedRanks ys := by
  simp [revealedRanks]

lemma nonAceSum_append (rs ts : List Rank) :
    nonAceSum (rs ++ ts) = nonAceSum rs + nonAceSum ts := by
  simp [nonAceSum]

lemma dealerDraw_faceVal (i : Nat) :
    2 ≤ faceVal (drawNextDealerCard i).1.1 := by
  have h5 : i % 5 = 0 ∨ i % 5 = 1 ∨ i % 5 = 2 ∨ i % 5 = 3 ∨ i % 5 = 4 := by omega
  rcases h5 with h | h | h | h | h <;>
    simp [drawNextDealerCard, mockDealerDeck, h, faceVal]

lemma dealerStepCards_eq (cards : List UICard) (i : Nat) :
    dealerStepCards cards i =
      cards ++ [⟨(drawNextDealerCard i).1.1, (drawNextDealerCard i).1.2, false⟩] := by
  unfold dealerStepCards
  rw [flipLast_append]

lemma dealerStep_sum (cards : List UICard) (i : Nat) :
    nonAceSum (revealedRanks cards) + 2 ≤
      nonAceSum (revealedRanks (dealerStepCards cards i)) := by
  rw [dealerStepCards_eq, revealedRanks_append, nonAceSum_append]
  have h1 : revealedRanks [(⟨(drawNextDealerCard i).1.1, (drawNextDealerCard i).1.2, false⟩ : UICard)]
      = [(drawNextDealerCard i).1.1] := by
    simp [revealedRanks]
  rw [h1]
  have h2 : nonAceSum [(drawNextDealerCard i).1.1] = faceVal (drawNextDealerCard i).1.1 := by
    simp [nonAceSum]
  have := dealerDraw_faceVal i
  omega

lemma dealerStep_value (cards : List UICard) (i : Nat) (v : Nat) :
    nonAceSum (revealedRanks (dealerStepCards cards i)) ≤
      (calculateHandValue (dealerStepCards cards i)).getD v := by
  have hne : revealedRanks (dealerStepCards cards i) ≠ [] := by
    rw [dealerStepCards_eq, revealedRanks_append]
    simp [revealedRanks]
  rw [calculateHandValue_eq, if_neg hne]
  simpa using closedScore_lb _ _

lemma initial_value_ge (cards : List UICard) :
    nonAceSum (revealedRanks cards) ≤ (calculateHandValue cards).getD 0 := by
  cases hc : calculateHandValue cards with
  | none =>
    have h0 : revealedRanks cards = [] := (handValue_none_iff cards).mp hc
    simp [h0, nonAceSum]
  | some v => simpa using handValue_some_ge cards v hc

lemma dealerDrawLoop_ge : ∀ (f : Nat) (cards : List UICard) (i v : Nat),
    nonAceSum (revealedRanks cards) ≤ v →
    17 ≤ nonAceSum (revealedRanks cards) + 2 * f →
    17 ≤ (dealerDrawLoop f cards i v).2.2 := by
  intro f
  induction f with
  | zero =>
    intro cards i v hS hF
    simp only [dealerDrawLoop]
    omega
  | succ f ih =>
    intro cards i v hS hF
    by_cases hv : v < 17
    · rw [show dealerDrawLoop (f + 1) cards i v =
        if v < 17 then
          dealerDrawLoop f (dealerStepCards cards i) (drawNextDealerCard i).2
            ((calculateHandValue (dealerStepCards cards i)).getD v)
        else (cards, i, v) from rfl, if_pos hv]
      have hstep := dealerStep_sum cards i
      exact ih _ _ _ (dealerStep_value cards i v) (by omega)
    · rw [show dealerDrawLoop (f + 1) cards i v =
        if v < 17 then
          dealerDrawLoop f (dealerStepCards cards i) (drawNextDealerCard i).2
            ((calculateHandValue (dealerStepCards cards i)).getD v)
        else (cards, i, v) from rfl, if_neg hv]
      show 17 ≤ v
      omega

lemma dealerDrawLoop_stop (g : Nat) (cards : List UICard) (i v : Nat) (h : 17 ≤ v) :
    dealerDrawLoop g cards i v = (cards, i, v) := by
  cases g with
  | zero => rfl
  | succ g =>
    rw [show dealerDrawLoop (g + 1) cards i v =
      if v < 17 then
        dealerDrawLoop g (dealerStepCards cards i) (drawNextDealerCard i).2
          ((calculateHandValue (dealerStepCards cards i)).getD v)
      else (cards, i, v) from rfl, if_neg (by omega)]

lemma dealerDrawLoop_extends : ∀ (f : Nat) (cards : List UICard) (i v : Nat),
    ∃ drawn : List UICard,
      (dealerDrawLoop f cards i v).1 = cards ++ drawn ∧ drawn.length ≤ f := by
  intro f
  induction f with
  | zero => intro cards i v; exact ⟨[], by simp [dealerDrawLoop]⟩
  | succ f ih =>
    intro cards i v
    by_cases hv : v < 17
    · rw [show dealerDrawLoop (f + 1) cards i v =
        if v < 17 then
          dealerDrawLoop f (dealerStepCards cards i) (drawNextDealerCard i).2
            ((calculateHandValue (dealerStepCards cards i)).getD v)
        else (cards, i, v) from rfl, if_pos hv]
      obtain ⟨drawn, hd, hl⟩ := ih (dealerStepCards cards i) (drawNextDealerCard i).2
        ((calculateHandValue (dealerStepCards cards i)).getD v)
      refine ⟨⟨(drawNextDealerCard i).1.1, (drawNextDealerCard i).1.2, false⟩ :: drawn, ?_, ?_⟩
      · rw [hd, dealerStepCards_eq]
        simp
      · simp only [List.length_cons]
        omega
    · rw [show dealerDrawLoop (f + 1) cards i v =
        if v < 17 then
          dealerDrawLoop f (dealerStepCards cards i) (drawNextDealerCard i).2
            ((calculateHandValue (dealerStepCards cards i)).getD v)
        else (cards, i, v) from rfl, if_neg hv]
      exact ⟨[], by simp⟩

lemma finalDealer_ge (s : GState) : 17 ≤ (finalDealerState s).2.2 := by
  unfold finalDealerState
  apply dealerDrawLoop_ge
  · exact initial_value_ge _
  · have : (0:Nat) ≤ nonAceSum (revealedRanks (s.dealerCards.map
      (fun c => { c with isFaceDown := false }))) := Nat.zero_le _
    simp only [dealerFuel]
    omega

lemma bustCheck_none (t : GState) (hv : playerScore t = none) : bustCheck t = t := by
  unfold bustCheck
  rw [hv]

lemma bustCheck_some (t : GState) (v : Nat) (hv : playerScore t = some v) :
    bustCheck t =
      if t.stage = Stage.PLAYER_TURN ∧ 21 < v ∧ t.result = none then
        { t with result := some ⟨Outcome.LOSE, "爆牌"⟩,
                 game := calculatePayout t.game ⟨Outcome.LOSE, "爆牌"⟩,
                 stage := Stage.RESULT }
      else t := by
  unfold bustCheck
  rw [hv]

/-- The no-bust outcome reasons of the dealer-turn rule never coincide
with the PLAYER_TURN immediate-bust reason string. -/
lemma decideOutcome_reason_ne (p d : Nat) :
    decideOutcome p d ≠ ⟨Outcome.LOSE, "爆牌"⟩ := by
  unfold decideOutcome
  split_ifs <;> decide

/-! ### Concrete states used by the witnesses -/

/-- A game-store object with the given chips and bet. -/
def settleGame (chips bet : Int) : Game :=
  ⟨1, GameStatus.BET, ⟨chips, bet, []⟩, ⟨999999, []⟩⟩

/-- Scenario A of the spec: player `A♥ K♠` revealed, dealer `10♦` revealed
and `7♣` hidden, bet 100, chips 1000, player to act. -/
def exState : GState :=
  { showChips := true
    selectedBet := some 100
    isBetting := false
    isBlackjack := false
    playerCards := [⟨Rank.ace, "hearts/heart", false⟩, ⟨Rank.king, "spades/spade", false⟩]
    dealerCards := [⟨Rank.num 10, "diamonds/diamond", false⟩, ⟨Rank.num 7, "clubs/club", true⟩]
    stage := Stage.PLAYER_TURN
    result := none
    isPlayerActing := false
    isDealerActing := false
    game := settleGame 1000 100
    playerDrawIdx := 0
    dealerDrawIdx := 0 }

/-- Scenario B of the spec: the player has hit into `10, 9, 5` (24). -/
def bustState : GState :=
  { exState with
    playerCards := [⟨Rank.num 10, "diamonds/diamond", false⟩,
      ⟨Rank.num 9, "hearts/heart", false⟩, ⟨Rank.num 5, "clubs/club", false⟩] }

/-- Scenario C of the spec: the player holds two revealed cards and
doubles; the next mock player card (`5♣`) busts the hand. -/
def doubleState : GState :=
  { exState with
    playerCards := [⟨Rank.num 10, "diamonds/diamond", false⟩,
      ⟨Rank.num 9, "hearts/heart", false⟩] }

/-- A state during the dealer's turn (no player action is legal). -/
def dealerStageState : GState := { exState with stage := Stage.DEALER_TURN }

/-- A single revealed five — an ace-free hand. -/
def loneFive : List UICard := [⟨Rank.num 5, "clubs/club", false⟩]

/-- A ten and a seven, both revealed. -/
def exHand : List UICard :=
  [⟨Rank.num 10, "diamonds/diamond", false⟩, ⟨Rank.num 7, "clubs/club", false⟩]

/-! ## Claim theorems -/

/-- C1: `calculateHandValue` considers only the cards not flagged
face-down and returns `none` exactly when no revealed card exists;
otherwise it returns the sum in which numeric ranks contribute their face
value, J/Q/K contribute 10, and each ace contributes 11 unless doing so
(with all other not-yet-resolved aces still presumed at 11) would push
the total over 21, in which case that ace contributes 1 — the rule
`evaluateClaim` spells out from the claim's vocabulary.  (Both rules
compute the same score: the source counts the first ace at 11 and
degrades the rest, the claim's reading degrades the leading aces and may
count the last at 11.) -/
theorem hand_evaluator_contract (cards : List UICard) :
    calculateHandValue cards = evaluateClaim cards ∧
    calculateHandValue cards = calculateHandValue (cards.filter (fun c => !c.isFaceDown)) ∧
    (calculateHandValue cards = none ↔ revealedRanks cards = []) := by
  refine ⟨?_, ?_, handValue_none_iff cards⟩
  · rw [calculateHandValue_eq, evaluateClaim_eq]
  · have hr : revealedRanks (cards.filter (fun c => !c.isFaceDown)) = revealedRanks cards := by
      simp [revealedRanks, List.filter_filter]
    simp only [calculateHandValue, hr]

theorem hand_evaluator_contract_witness :
    calculateHandValue exHand = evaluateClaim exHand :=
  (hand_evaluator_contract exHand).1

/-- C10 (amended): for every revealed rank sequence holding at least one
revealed card, with `s` the sum of non-ace face values and `a` the number
of aces, `calculateHandValue` returns `s + a + 10` when `a ≥ 1` and
`s + a + 10 ≤ 21`, and `s + a` otherwise (so at most one ace is counted
as 11 and the result is independent of the order of the cards). -/
theorem hand_value_closed_form (cards : List UICard)
    (hne : revealedRanks cards ≠ []) :
    calculateHandValue cards =
      some (if 1 ≤ aceCount (revealedRanks cards) ∧
              nonAceSum (revealedRanks cards) + aceCount (revealedRanks cards) + 10 ≤ 21
            then nonAceSum (revealedRanks cards) + aceCount (revealedRanks cards) + 10
            else nonAceSum (revealedRanks cards) + aceCount (revealedRanks cards)) ∧
    (∀ cards2 : List UICard, (revealedRanks cards).Perm (revealedRanks cards2) →
      calculateHandValue cards = calculateHandValue cards2) := by
  constructor
  · rw [calculateHandValue_eq, if_neg hne]
    congr 1
    unfold closedScore
    split_ifs <;> omega
  · intro c2 hp
    exact handValue_perm _ _ hp

theorem hand_value_closed_form_witness :
    calculateHandValue exHand =
      some (if 1 ≤ aceCount (revealedRanks exHand) ∧
              nonAceSum (revealedRanks exHand) + aceCount (revealedRanks exHand) + 10 ≤ 21
            then nonAceSum (revealedRanks exHand) + aceCount (revealedRanks exHand) + 10
            else nonAceSum (revealedRanks exHand) + aceCount (revealedRanks exHand)) :=
  (hand_value_closed_form exHand (by decide)).1

/-- C10 counterexample: on the ace-free revealed hand `[5]` the claim's
formula (`s + a + 10` whenever `s + a + 10 ≤ 21`) predicts 15, while the
evaluator returns 5. -/
theorem hand_value_closed_form_counterexample :
    nonAceSum (revealedRanks loneFive) = 5 ∧
    aceCount (revealedRanks loneFive) = 0 ∧
    nonAceSum (revealedRanks loneFive) + aceCount (revealedRanks loneFive) + 10 ≤ 21 ∧
    calculateHandValue loneFive = some 5 ∧
    calculateHandValue loneFive ≠
      some (nonAceSum (revealedRanks loneFive) + aceCount (revealedRanks loneFive) + 10) := by
  decide

/-- C3: settlement returns `chips + bet` on WIN, `chips - bet` on LOSE
and `chips` on PUSH; no other field of the game object changes; and the
spec's concrete cases `settle(1000, 100, _)` give 1100 / 900 / 1000. -/
theorem payout_engine (g : Game) (r : GameResult) :
    ((calculatePayout g r).player.chips =
      match r.outcome with
      | Outcome.WIN => g.player.chips + g.player.bet
      | Outcome.LOSE => g.player.chips - g.player.bet
      | Outcome.PUSH => g.player.chips) ∧
    (calculatePayout g r).id = g.id ∧
    (calculatePayout g r).status = g.status ∧
    (calculatePayout g r).player.bet = g.player.bet ∧
    (calculatePayout g r).player.cards = g.player.cards ∧
    (calculatePayout g r).dealer = g.dealer ∧
    (calculatePayout (settleGame 1000 100) ⟨Outcome.WIN, ""⟩).player.chips = 1100 ∧
    (calculatePayout (settleGame 1000 100) ⟨Outcome.LOSE, ""⟩).player.chips = 900 ∧
    (calculatePayout (settleGame 1000 100) ⟨Outcome.PUSH, ""⟩).player.chips = 1000 := by
  refine ⟨?_, rfl, rfl, rfl, rfl, rfl, by decide, by decide, by decide⟩
  cases hr : r.outcome <;> simp [calculatePayout, hr]

theorem payout_engine_witness :
    (calculatePayout (settleGame 1000 100) ⟨Outcome.WIN, ""⟩).player.chips = 1100 :=
  (payout_engine (settleGame 1000 100) ⟨Outcome.WIN, ""⟩).2.2.2.2.2.2.1

/-- C2: the outcome the dealer turn stores is `decideOutcome p d` for the
player score captured from the snapshot taken before the dealer turn and
the dealer score after auto-play, and `decideOutcome` is exactly the
first-match cascade (1) `d > 21 ∧ p ≤ 21 → WIN`, (2) `p > 21 ∧ d ≤ 21 →
LOSE`, (3) `p = d → PUSH`, (4) `p > d → WIN`, (5) otherwise `LOSE`; once
a result is stored the bust effect no longer fires and no player action
changes the state, so the outcome is computed once per round. -/
theorem dealer_turn_outcome (s : GState) (snapshot : List UICard) (p d : Nat)
    (hp : p = playerSnapshotValue snapshot)
    (hd : d = (finalDealerState s).2.2) :
    (runDealerTurn snapshot s).result = some (decideOutcome p d) ∧
    (decideOutcome p d).outcome =
      (if 21 < d ∧ p ≤ 21 then Outcome.WIN
       else if 21 < p ∧ d ≤ 21 then Outcome.LOSE
       else if p = d then Outcome.PUSH
       else if d < p then Outcome.WIN
       else Outcome.LOSE) ∧
    (21 < d ∧ p ≤ 21 → (decideOutcome p d).outcome = Outcome.WIN) ∧
    (¬(21 < d ∧ p ≤ 21) → 21 < p ∧ d ≤ 21 → (decideOutcome p d).outcome = Outcome.LOSE) ∧
    (¬(21 < d ∧ p ≤ 21) → ¬(21 < p ∧ d ≤ 21) → p = d →
      (decideOutcome p d).outcome = Outcome.PUSH) ∧
    (¬(21 < d ∧ p ≤ 21) → ¬(21 < p ∧ d ≤ 21) → p ≠ d → d < p →
      (decideOutcome p d).outcome = Outcome.WIN) ∧
    (¬(21 < d ∧ p ≤ 21) → ¬(21 < p ∧ d ≤ 21) → p ≠ d → ¬(d < p) →
      (decideOutcome p d).outcome = Outcome.LOSE) ∧
    (∀ t : GState, t.result ≠ none → bustCheck t = t) ∧
    (∀ t : GState, t.stage = Stage.RESULT →
      handleHit t = t ∧ handleStand t = t ∧ handleDouble t = t) := by
  subst hp hd
  refine ⟨rfl, ?_, ?_, ?_, ?_, ?_, ?_, ?_, ?_⟩
  · unfold decideOutcome
    split_ifs <;> rfl
  · intro h1
    unfold decideOutcome
    rw [if_pos h1]
  · intro h1 h2
    unfold decideOutcome
    rw [if_neg h1, if_pos h2]
  · intro h1 h2 h3
    unfold decideOutcome
    rw [if_neg h1, if_neg h2, if_pos h3]
  · intro h1 h2 h3 h4
    unfold decideOutcome
    rw [if_neg h1, if_neg h2, if_neg h3, if_pos h4]
  · intro h1 h2 h3 h4
    unfold decideOutcome
    rw [if_neg h1, if_neg h2, if_neg h3, if_neg h4]
  · intro t ht
    cases hps : playerScore t with
    | none => exact bustCheck_none t hps
    | some v => rw [bustCheck_some t v hps, if_neg (fun hcon => ht hcon.2.2)]
  · intro t ht
    have hg : t.stage ≠ Stage.PLAYER_TURN := by rw [ht]; decide
    refine ⟨?_, ?_, ?_⟩
    · unfold handleHit
      rw [if_pos (Or.inl hg)]
    · unfold handleStand
      rw [if_pos (Or.inl hg)]
    · unfold handleDouble
      rw [if_pos (Or.inl hg)]

theorem dealer_turn_outcome_witness :
    (runDealerTurn exState.playerCards exState).result =
      some (decideOutcome (playerSnapshotValue exState.playerCards)
        ((finalDealerState exState).2.2)) :=
  (dealer_turn_outcome exState exState.playerCards _ _ rfl rfl).1

/-- C4: in PLAYER_TURN with no result and a revealed score above 21, the
bust effect immediately stores outcome LOSE (reason bust), applies the
payout (`chips - bet`) and moves to RESULT — never to DEALER_TURN; and in
any settled state (one the bust effect leaves unchanged) a PLAYER_TURN
state with no result cannot carry a score above 21, so no hit can be
processed there while the score already exceeds 21; hits are also no-ops
once the stage is RESULT. -/
theorem player_bust_short_circuit (s : GState) (v : Nat)
    (hstage : s.stage = Stage.PLAYER_TURN) (hres : s.result = none)
    (hscore : playerScore s = some v) (hbust : 21 < v) :
    (bustCheck s).stage = Stage.RESULT ∧
    (bustCheck s).result = some ⟨Outcome.LOSE, "爆牌"⟩ ∧
    (bustCheck s).game.player.chips = s.game.player.chips - s.game.player.bet ∧
    (bustCheck s).stage ≠ Stage.DEALER_TURN ∧
    (∀ t : GState, bustCheck t = t → t.stage = Stage.PLAYER_TURN → t.result = none →
      ∀ w, playerScore t = some w → w ≤ 21) ∧
    (∀ t : GState, t.stage = Stage.RESULT → handleHit t = t) := by
  have hb : bustCheck s =
      { s with result := some ⟨Outcome.LOSE, "爆牌"⟩,
               game := calculatePayout s.game ⟨Outcome.LOSE, "爆牌"⟩,
               stage := Stage.RESULT } := by
    rw [bustCheck_some s v hscore, if_pos ⟨hstage, hbust, hres⟩]
  refine ⟨by rw [hb], by rw [hb], ?_, by rw [hb]; simp, ?_, ?_⟩
  · rw [hb]
    simp [calculatePayout]
  · intro t hstable hst hres2 w hw
    by_contra hgt
    push_neg at hgt
    have hbt : (bustCheck t).result = some ⟨Outcome.LOSE, "爆牌"⟩ := by
      rw [bustCheck_some t w hw, if_pos ⟨hst, hgt, hres2⟩]
    rw [hstable, hres2] at hbt
    exact Option.noConfusion hbt
  · intro t ht
    unfold handleHit
    rw [if_pos (Or.inl (by rw [ht]; decide))]

theorem player_bust_short_circuit_witness :
    (bustCheck bustState).result = some ⟨Outcome.LOSE, "爆牌"⟩ :=
  (player_bust_short_circuit bustState 24 rfl rfl (by decide) (by decide)).2.1

/-- C5: a legal double (PLAYER_TURN, no busy flag, exactly two revealed
player cards, chips covering the doubled bet) doubles the bet, draws and
reveals exactly one card, and hands control to the dealer turn: the final
stage is RESULT with the outcome computed by the dealer-turn rule on the
post-draw hand — even on a bust the stored result carries the dealer-rule
reason, never the PLAYER_TURN immediate-bust reason. -/
theorem double_down_path (s : GState)
    (hstage : s.stage = Stage.PLAYER_TURN)
    (hbetting : s.isBetting = false)
    (hpa : s.isPlayerActing = false)
    (hda : s.isDealerActing = false)
    (hopen : (s.playerCards.filter (fun c => !c.isFaceDown)).length = 2)
    (hchips : currentBetOf s * 2 ≤ s.game.player.chips) :
    (handleDouble s).game.player.bet = currentBetOf s * 2 ∧
    (handleDouble s).playerCards = s.playerCards ++ [doubleDrawnCard s] ∧
    (handleDouble s).stage = Stage.RESULT ∧
    (handleDouble s).result =
      some (decideOutcome (playerSnapshotValue (s.playerCards ++ [doubleDrawnCard s]))
        ((finalDealerState s).2.2)) ∧
    (21 < playerSnapshotValue (s.playerCards ++ [doubleDrawnCard s]) →
      (finalDealerState s).2.2 ≤ 21 →
      (handleDouble s).result = some ⟨Outcome.LOSE, "玩家爆牌"⟩) ∧
    (handleDouble s).result ≠ some ⟨Outcome.LOSE, "爆牌"⟩ := by
  have hguard : ¬(s.stage ≠ Stage.PLAYER_TURN ∨ s.isBetting = true ∨
      s.isPlayerActing = true ∨ s.isDealerActing = true) := by
    simp [hstage, hbetting, hpa, hda]
  have hlen : ¬((s.playerCards.filter (fun c => !c.isFaceDown)).length ≠ 2) := by
    simp [hopen]
  have hmoney : ¬(s.game.player.chips < currentBetOf s * 2) := by omega
  have hflip : flipLastCard (s.playerCards ++
      [⟨(drawNextPlayerCard s.playerDrawIdx).1.1,
        (drawNextPlayerCard s.playerDrawIdx).1.2, true⟩]) =
      s.playerCards ++ [doubleDrawnCard s] := by
    rw [flipLast_append]
    rfl
  have hD : handleDouble s = runDealerTurn (s.playerCards ++ [doubleDrawnCard s])
      { s with game := { s.game with
                 player := { s.game.player with bet := currentBetOf s * 2 } },
               selectedBet := some (currentBetOf s * 2),
               playerCards := s.playerCards ++ [doubleDrawnCard s],
               playerDrawIdx := (drawNextPlayerCard s.playerDrawIdx).2 } := by
    simp only [handleDouble]
    rw [if_neg hguard, if_neg hlen, if_neg hmoney, hflip]
  refine ⟨?_, ?_, ?_, ?_, ?_, ?_⟩
  · rw [hD]
    simp [runDealerTurn, calculatePayout]
  · rw [hD]
    rfl
  · rw [hD]
    rfl
  · rw [hD]
    rfl
  · intro hpv hdv
    rw [hD]
    have : decideOutcome (playerSnapshotValue (s.playerCards ++ [doubleDrawnCard s]))
        ((finalDealerState s).2.2) = ⟨Outcome.LOSE, "玩家爆牌"⟩ := by
      unfold decideOutcome
      rw [if_neg (by omega), if_pos ⟨hpv, hdv⟩]
    exact congrArg some this
  · rw [hD]
    exact fun h => decideOutcome_reason_ne _ _ (Option.some.inj h)

theorem double_down_path_witness :
    (handleDouble doubleState).result =
      some (decideOutcome (playerSnapshotValue
        (doubleState.playerCards ++ [doubleDrawnCard doubleState]))
        ((finalDealerState doubleState).2.2)) :=
  (double_down_path doubleState rfl rfl rfl rfl (by decide) (by decide)).2.2.2.1

/-- C6: a double request is rejected with the state fully unchanged when
the player does not hold exactly two revealed cards or when the doubled
bet exceeds the chip balance (the source at most raises an `alert`). -/
theorem double_down_rejected (s : GState)
    (h : (s.playerCards.filter (fun c => !c.isFaceDown)).length ≠ 2 ∨
         s.game.player.chips < currentBetOf s * 2) :
    handleDouble s = s ∧
    (handleDouble s).stage = s.stage ∧
    (handleDouble s).game = s.game ∧
    (handleDouble s).playerCards = s.playerCards ∧
    (handleDouble s).selectedBet = s.selectedBet := by
  have he : handleDouble s = s := by
    simp only [handleDouble]
    split_ifs with h1 h2 h3
    · rfl
    · rfl
    · rfl
    · exfalso
      rcases h with h | h
      · exact h2 h
      · exact h3 h
  exact ⟨he, by rw [he], by rw [he], by rw [he], by rw [he]⟩

theorem double_down_rejected_witness :
    handleDouble bustState = bustState :=
  (double_down_rejected bustState (Or.inl (by decide))).1

/-- C7: the dealer turn first reveals every dealer card, then draws one
card at a time exactly while the dealer score is strictly below 17 (the
one-step unfoldings), adds at most `dealerFuel = 9` cards, exits with a
score of at least 17 (so also on totals above 21), the exit state is a
fixpoint of the loop for any further fuel, and no card is drawn when the
revealed hand already scores 17 or more. -/
theorem dealer_autoplay_loop (snapshot : List UICard) (s : GState) :
    (runDealerTurn snapshot s).dealerCards = (finalDealerState s).1 ∧
    (∃ drawn : List UICard,
      (finalDealerState s).1 =
        s.dealerCards.map (fun c => { c with isFaceDown := false }) ++ drawn ∧
      drawn.length ≤ dealerFuel) ∧
    17 ≤ (finalDealerState s).2.2 ∧
    (∀ g : Nat, dealerDrawLoop g (finalDealerState s).1 (finalDealerState s).2.1
        (finalDealerState s).2.2 = finalDealerState s) ∧
    (∀ (f : Nat) (cards : List UICard) (i v : Nat), 17 ≤ v →
      dealerDrawLoop (f + 1) cards i v = (cards, i, v)) ∧
    (∀ (f : Nat) (cards : List UICard) (i v : Nat), v < 17 →
      dealerDrawLoop (f + 1) cards i v =
        dealerDrawLoop f (dealerStepCards cards i) (drawNextDealerCard i).2
          ((calculateHandValue (dealerStepCards cards i)).getD v)) ∧
    (17 ≤ (calculateHandValue
        (s.dealerCards.map (fun c => { c with isFaceDown := false }))).getD 0 →
      (finalDealerState s).1 =
        s.dealerCards.map (fun c => { c with isFaceDown := false })) := by
  refine ⟨rfl, ?_, finalDealer_ge s, ?_, ?_, ?_, ?_⟩
  · unfold finalDealerState
    exact dealerDrawLoop_extends dealerFuel _ _ _
  · intro g
    have := dealerDrawLoop_stop g (finalDealerState s).1 (finalDealerState s).2.1
      (finalDealerState s).2.2 (finalDealer_ge s)
    simpa using this
  · intro f cards i v hv
    exact dealerDrawLoop_stop (f + 1) cards i v hv
  · intro f cards i v hv
    rw [show dealerDrawLoop (f + 1) cards i v =
      if v < 17 then
        dealerDrawLoop f (dealerStepCards cards i) (drawNextDealerCard i).2
          ((calculateHandValue (dealerStepCards cards i)).getD v)
      else (cards, i, v) from rfl, if_pos hv]
  · intro h17
    unfold finalDealerState
    rw [dealerDrawLoop_stop _ _ _ _ h17]

theorem dealer_autoplay_loop_witness :
    17 ≤ (finalDealerState exState).2.2 :=
  (dealer_autoplay_loop [] exState).2.2.1

/-- C8: hit, stand and double requested outside PLAYER_TURN or while any
busy flag (`isBetting`, `isPlayerActing`, `isDealerActing`) is set are
silently ignored — the handlers return the state unchanged and produce no
error value. -/
theorem illegal_action_ignored (s : GState)
    (h : s.stage ≠ Stage.PLAYER_TURN ∨ s.isBetting = true ∨ s.isPlayerActing = true ∨
         s.isDealerActing = true) :
    handleHit s = s ∧ handleStand s = s ∧ handleDouble s = s := by
  refine ⟨?_, ?_, ?_⟩
  · unfold handleHit
    rw [if_pos h]
  · unfold handleStand
    rw [if_pos h]
  · unfold handleDouble
    rw [if_pos h]

theorem illegal_action_ignored_witness :
    handleHit dealerStageState = dealerStageState :=
  (illegal_action_ignored dealerStageState (Or.inl (by decide))).1

/-- C9: reset clears both hands (and with them both derived scores), the
selected bet and the stored result, returns the stage to READY, resets
the stored game to a fresh round (status NEW, bet 0) — and carries the
chip balance over unchanged, along with the other persistent game
fields. -/
theorem reset_round (s : GState) :
    (handleReset s).stage = Stage.READY ∧
    (handleReset s).playerCards = [] ∧
    (handleReset s).dealerCards = [] ∧
    playerScore (handleReset s) = none ∧
    dealerScore (handleReset s) = none ∧
    (handleReset s).selectedBet = none ∧
    (handleReset s).result = none ∧
    (handleReset s).game.player.bet = 0 ∧
    (handleReset s).game.status = GameStatus.NEW ∧
    (handleReset s).game.player.chips = s.game.player.chips ∧
    (handleReset s).game.id = s.game.id ∧
    (handleReset s).game.player.cards = s.game.player.cards ∧
    (handleReset s).game.dealer = s.game.dealer :=
  ⟨rfl, rfl, rfl, rfl, rfl, rfl, rfl, rfl, rfl, rfl, rfl, rfl, rfl⟩

theorem reset_round_witness :
    (handleReset exState).game.player.chips = exState.game.player.chips :=
  (reset_round exState).2.2.2.2.2.2.2.2.2.1

end BlackJack
